import Mathlib

/-!
Verification development for the scholarship rule engine
(`evaluate_condition` and `apply_rules` in `SD23041_LR3.py`).

The engine works on JSON data: a condition is a list of JSON scalars,
facts are a string-keyed mapping to floats, and rules are records with
optional keys `name`, `priority`, `conditions`, `action`.  JSON numbers
(Python ints and floats) are modelled as rationals: every literal in the
default ruleset is exactly representable and the comparison structure is
unchanged.  Fallible Python code is modelled in `Except PyErr`: a
`TypeError` raised by an order comparison between a float and a string
surfaces as `Except.error PyErr.typeError`.
-/

deriving instance DecidableEq for Except

namespace Scholarship

/-- A JSON scalar as the engine sees it: a number or a string. -/
inductive JVal where
  | num (q : ℚ)
  | str (s : String)
deriving DecidableEq

/-- The one exception the modelled code can raise: Python's `TypeError`
from an order comparison between a float and a str. -/
inductive PyErr where
  | typeError
deriving DecidableEq

/-- The facts mapping `Dict[str, float]`: keys are unique in a Python dict,
lookup returns the first binding. -/
abbrev Facts := List (String × ℚ)

/-- `facts.get(k)`: `none` models Python's `None` for an absent key. -/
def factsGet (facts : Facts) (k : String) : Option ℚ :=
  match facts with
  | [] => none
  | (k', v) :: rest => if k' = k then some v else factsGet rest k

/-- `str(field)` on a JSON scalar.  A non-string field is rendered via
`toString`; CPython renders floats with different digits, which only
affects lookups of numeric-looking fact keys. -/
def pyStr : JVal → String
  | JVal.str s => s
  | JVal.num q => toString q

/-- Python `str.strip()` with no argument: remove leading and trailing
whitespace (the Unicode space classes beyond ASCII whitespace are not
modelled). -/
def pyStrip (cs : List Char) : List Char :=
  ((cs.dropWhile Char.isWhitespace).reverse.dropWhile Char.isWhitespace).reverse

/-- Python `str.isdigit`: nonempty and all digits (restricted to ASCII
digits; the Unicode digit classes add nothing for this engine's inputs). -/
def pyIsdigit (cs : List Char) : Bool :=
  !cs.isEmpty && cs.all Char.isDigit

/-- Value of a list of decimal digit characters. -/
def digitsVal (cs : List Char) : ℕ :=
  cs.foldl (fun a c => a * 10 + (c.toNat - 48)) 0

/-- A nonempty all-digit run, or `none`. -/
def parseDigits? (cs : List Char) : Option ℕ :=
  if cs.isEmpty then none
  else if cs.all Char.isDigit then some (digitsVal cs) else none

/-- Mantissa of CPython `float()` parsing: digits with at most one dot,
at least one digit overall (`"5."` and `".5"` accepted, `"."` not).
Returns the digit string's value together with the number of fractional
digits, so `(m, k)` stands for `m / 10^k`.  Digit-group underscores and
the `inf`/`nan` forms are not modelled. -/
def parseMantissa? (cs : List Char) : Option (ℕ × ℕ) :=
  let ip := cs.takeWhile (fun c => c != '.')
  match cs.dropWhile (fun c => c != '.') with
  | [] => (parseDigits? ip).map (fun n => (n, 0))
  | _ :: fp =>
    if fp.contains '.' then none
    else if ip.isEmpty && fp.isEmpty then none
    else if ip.all Char.isDigit && fp.all Char.isDigit then
      some (digitsVal (ip ++ fp), fp.length)
    else none

/-- Exponent suffix of `float()` parsing: an optionally signed digit
run, as `(negated, magnitude)`. -/
def parseExp? (cs : List Char) : Option (Bool × ℕ) :=
  match cs with
  | '+' :: rest => (parseDigits? rest).map (fun n => (false, n))
  | '-' :: rest => (parseDigits? rest).map (fun n => (true, n))
  | _ => (parseDigits? cs).map (fun n => (false, n))

/-- Assemble a parsed float: sign, mantissa `m / 10^k`, exponent. -/
def assembleFloat (neg : Bool) (m k : ℕ) (eneg : Bool) (e : ℕ) : ℚ :=
  let eplus := if eneg then 0 else e
  let eminus := if eneg then e else 0
  let numAbs : ℕ := m * 10 ^ eplus
  mkRat (if neg then -(numAbs : ℤ) else (numAbs : ℤ)) (10 ^ (k + eminus))

/-- CPython `float(s)` on a character list: `none` models the
`ValueError` on unparseable input (which the engine's `try` block
catches). -/
def pyFloat? (cs₀ : List Char) : Option ℚ :=
  let cs := pyStrip cs₀
  let neg := cs.head? == some '-'
  let body := match cs with
    | '+' :: rest => rest
    | '-' :: rest => rest
    | _ => cs
  let mant := body.takeWhile (fun c => !(c == 'e' || c == 'E'))
  let expTail := body.dropWhile (fun c => !(c == 'e' || c == 'E'))
  match parseMantissa? mant with
  | none => none
  | some (m, k) =>
    match expTail with
    | [] => some (assembleFloat neg m k false 0)
    | _ :: expPart =>
      match parseExp? expPart with
      | none => none
      | some (eneg, e) => some (assembleFloat neg m k eneg e)

/-- Lines 131-141 of the source: coerce the condition's literal.
A number is used as-is.  A string is stripped; if it contains a dot or is
all digits after removing every `-` and `.`, it goes through `float()`
(`none` models the caught `ValueError`, i.e. `return False`); otherwise
the stripped string itself is kept as the comparison value. -/
def coerceValue (raw : JVal) : Option JVal :=
  match raw with
  | JVal.num q => some (JVal.num q)
  | JVal.str s =>
    let t := pyStrip s.toList
    if t.contains '.' ||
        pyIsdigit ((t.filter (fun c => c != '-')).filter (fun c => c != '.')) then
      match pyFloat? t with
      | some q => some (JVal.num q)
      | none => none
    else
      some (JVal.str (String.mk t))

/-- `evaluate_condition(condition, facts)` (source lines 118-150).
Wrong arity, unknown field, caught conversion failure and unknown
operator all yield `ok false`.  An order comparison (`>`, `>=`, `<`,
`<=`) between the float fact and a kept string literal is Python 3's
`TypeError`, which the function does not catch. -/
def evaluate_condition (condition : List JVal) (facts : Facts) : Except PyErr Bool :=
  match condition with
  | [field, op, rawValue] =>
    match factsGet facts (pyStr field) with
    | none => Except.ok false
    | some val =>
      match coerceValue rawValue with
      | none => Except.ok false
      | some value =>
        match op, value with
        | JVal.str "==", JVal.num q => Except.ok (decide (val = q))
        | JVal.str "==", JVal.str _ => Except.ok false
        | JVal.str "!=", JVal.num q => Except.ok (decide (val ≠ q))
        | JVal.str "!=", JVal.str _ => Except.ok true
        | JVal.str ">", JVal.num q => Except.ok (decide (q < val))
        | JVal.str ">", JVal.str _ => Except.error PyErr.typeError
        | JVal.str ">=", JVal.num q => Except.ok (decide (q ≤ val))
        | JVal.str ">=", JVal.str _ => Except.error PyErr.typeError
        | JVal.str "<", JVal.num q => Except.ok (decide (val < q))
        | JVal.str "<", JVal.str _ => Except.error PyErr.typeError
        | JVal.str "<=", JVal.num q => Except.ok (decide (val ≤ q))
        | JVal.str "<=", JVal.str _ => Except.error PyErr.typeError
        | _, _ => Except.ok false
  | _ => Except.ok false

/-- The action object a rule carries. -/
structure Action where
  decision : String
  reason : String
deriving DecidableEq

/-- A rule record from the parsed JSON; `none` in a field models an
absent dict key. -/
structure Rule where
  name : Option String
  priority : Option ℚ
  conditions : Option (List (List JVal))
  action : Option Action
deriving DecidableEq

/-- `rule.get("priority", 0)` — the sort key of line 158. -/
def rulePriority (r : Rule) : ℚ :=
  r.priority.getD 0

/-- `rule.get("conditions", [])` (line 160). -/
def ruleConds (r : Rule) : List (List JVal) :=
  r.conditions.getD []

/-- `all(evaluate_condition(cond, facts) for cond in conditions)`:
short-circuits at the first false condition, propagates an exception. -/
def condsAll (conds : List (List JVal)) (facts : Facts) : Except PyErr Bool :=
  match conds with
  | [] => Except.ok true
  | c :: rest =>
    match evaluate_condition c facts with
    | Except.error e => Except.error e
    | Except.ok false => Except.ok false
    | Except.ok true => condsAll rest facts

/-- Whether a rule fully matches the facts (line 161). -/
def ruleMatches (r : Rule) (facts : Facts) : Except PyErr Bool :=
  condsAll (ruleConds r) facts

/-- Descending comparison on the sort key.  Python's `sorted` is stable
and `reverse=True` inverts the key order while keeping equal keys in
their original relative order; `List.mergeSort` with this `le` has
exactly that behaviour. -/
def ruleLE (a b : Rule) : Bool :=
  decide (rulePriority b ≤ rulePriority a)

/-- `sorted(rules, key=lambda x: x.get("priority", 0), reverse=True)`. -/
def sortedRules (rules : List Rule) : List Rule :=
  rules.mergeSort ruleLE

/-- The `for rule in sorted_rules` loop of lines 159-163. -/
def applyRulesGo (facts : Facts) : List Rule → Except PyErr (Option Action × Option String)
  | [] => Except.ok (none, none)
  | r :: rest =>
    match ruleMatches r facts with
    | Except.error e => Except.error e
    | Except.ok true => Except.ok (r.action, r.name)
    | Except.ok false => applyRulesGo facts rest

/-- `apply_rules(rules, facts)` (source lines 152-163). -/
def apply_rules (rules : List Rule) (facts : Facts) :
    Except PyErr (Option Action × Option String) :=
  applyRulesGo facts (sortedRules rules)

/-! ### General lemmas about the engine -/

theorem condsAll_nil (facts : Facts) : condsAll [] facts = Except.ok true := rfl

theorem applyRulesGo_cons_true {r : Rule} {facts : Facts}
    (h : ruleMatches r facts = Except.ok true) (rest : List Rule) :
    applyRulesGo facts (r :: rest) = Except.ok (r.action, r.name) := by
  unfold applyRulesGo
  rw [h]

theorem applyRulesGo_cons_false {r : Rule} {facts : Facts}
    (h : ruleMatches r facts = Except.ok false) (rest : List Rule) :
    applyRulesGo facts (r :: rest) = applyRulesGo facts rest := by
  conv_lhs => rw [applyRulesGo, h]

theorem applyRulesGo_append {facts : Facts} {pre : List Rule}
    (h : ∀ r ∈ pre, ruleMatches r facts = Except.ok false) (rest : List Rule) :
    applyRulesGo facts (pre ++ rest) = applyRulesGo facts rest := by
  induction pre with
  | nil => rfl
  | cons r pre ih =>
    rw [List.cons_append, applyRulesGo_cons_false (h r (List.mem_cons_self r pre))]
    exact ih (fun r' hr' => h r' (List.mem_cons_of_mem r hr'))

theorem ruleLE_trans (a b c : Rule) (hab : ruleLE a b) (hbc : ruleLE b c) : ruleLE a c := by
  simp only [ruleLE, decide_eq_true_eq] at *
  exact le_trans hbc hab

theorem ruleLE_total (a b : Rule) : ruleLE a b || ruleLE b a := by
  simp only [ruleLE]
  rcases le_total (rulePriority b) (rulePriority a) with h | h <;> simp [h]

/-- C1: `apply_rules` returns the action and name of the first fully
matching rule after a stable sort by priority descending.  If the rule
at original index `i` fully matches, while every rule of strictly higher
priority and every earlier-listed rule of equal priority evaluates to
false, then `apply_rules` returns exactly that rule's action and name.
The equal-priority hypothesis is restricted to earlier-listed rules:
that is the stability of the sort — a higher-priority matching rule
always wins, an earlier-listed equal-priority matching rule wins, and a
later-listed rule is selected when it is the only match. -/
theorem apply_rules_first_match (rules : List Rule) (facts : Facts) (i : ℕ) (hi : i < rules.length)
    (hmatch : ruleMatches rules[i] facts = Except.ok true)
    (hhigh : ∀ (j : ℕ) (hj : j < rules.length),
      rulePriority rules[i] < rulePriority rules[j] →
      ruleMatches rules[j] facts = Except.ok false)
    (heq : ∀ (j : ℕ) (hj : j < rules.length), j < i →
      rulePriority rules[j] = rulePriority rules[i] →
      ruleMatches rules[j] facts = Except.ok false) :
    apply_rules rules facts = Except.ok (rules[i].action, rules[i].name) := by
  classical
  have hmap : (List.mergeSort rules.enum (List.enumLE ruleLE)).map (fun p => p.2)
      = List.mergeSort rules ruleLE := List.mergeSort_enum
  set s : List (ℕ × Rule) := List.mergeSort rules.enum (List.enumLE ruleLE) with hs
  have hpair : s.Pairwise (fun a b => List.enumLE ruleLE a b) :=
    List.sorted_mergeSort (fun a b c => List.enumLE_trans ruleLE_trans a b c)
      (List.enumLE_total ruleLE_total) _
  have hienum : i < rules.enum.length := by simpa using hi
  have hmem : (i, rules[i]) ∈ s := by
    rw [hs, List.mem_mergeSort]
    have h1 : rules.enum[i] = (i, rules[i]) := List.getElem_enum rules i hienum
    exact h1 ▸ List.getElem_mem hienum
  obtain ⟨pre, post, hdec⟩ := List.append_of_mem hmem
  have henumnd : rules.enum.Nodup := by
    have h2 : (rules.enum.map Prod.fst).Nodup := by
      rw [List.enum_map_fst]
      exact List.nodup_range _
    exact h2.of_map
  have hnd : s.Nodup := ((List.mergeSort_perm rules.enum _).nodup_iff).mpr henumnd
  have hnotmem : (i, rules[i]) ∉ pre := by
    rw [hdec] at hnd
    have hdisj := List.disjoint_of_nodup_append hnd
    intro hmem'
    exact hdisj hmem' (List.mem_cons_self _ _)
  have hprefalse : ∀ p ∈ pre, ruleMatches p.2 facts = Except.ok false := by
    intro p hp
    have hpin : p ∈ s := by
      rw [hdec]
      exact List.mem_append_left _ hp
    have hpin' : p ∈ rules.enum := by
      rw [hs] at hpin
      exact List.mem_mergeSort.mp hpin
    obtain ⟨j, r⟩ := p
    obtain ⟨hj, hr⟩ := List.mem_enum hpin'
    have hr2 : r = rules[j] := hr
    clear hr hpin hpin'
    subst hr2
    have hle : List.enumLE ruleLE (j, rules[j]) (i, rules[i]) := by
      rw [hdec] at hpair
      have hp2 := (List.pairwise_append.mp hpair).2.2
      exact hp2 _ hp _ (List.mem_cons_self _ _)
    simp only [List.enumLE] at hle
    by_cases h1 : ruleLE (rules[j]) (rules[i])
    · by_cases h2 : ruleLE (rules[i]) (rules[j])
      · -- equal priorities: stability gives j < i
        have hji : j ≤ i := by
          rw [if_pos h1, if_pos h2] at hle
          exact_mod_cast of_decide_eq_true hle
        have hjne : j ≠ i := by
          intro hji'
          subst hji'
          exact hnotmem hp
        have hprioeq : rulePriority rules[j] = rulePriority rules[i] := by
          simp only [ruleLE, decide_eq_true_eq] at h1 h2
          exact le_antisymm h2 h1
        exact heq j hj (lt_of_le_of_ne hji hjne) hprioeq
      · -- strictly higher priority
        have hlt : rulePriority rules[i] < rulePriority rules[j] := by
          simp only [ruleLE, decide_eq_true_eq] at h1 h2
          exact lt_of_le_of_ne h1 (fun hcontra => h2 (le_of_eq hcontra.symm))
        exact hhigh j hj hlt
    · rw [if_neg h1] at hle
      exact absurd hle (by simp)
  have hgoal : applyRulesGo facts (s.map (fun p => p.2)) =
      Except.ok (rules[i].action, rules[i].name) := by
    rw [hdec, List.map_append, List.map_cons]
    rw [applyRulesGo_append (fun r hr => by
      obtain ⟨p, hp, hpr⟩ := List.mem_map.mp hr
      exact hpr ▸ hprefalse p hp)]
    exact applyRulesGo_cons_true hmatch _
  calc apply_rules rules facts
      = applyRulesGo facts (List.mergeSort rules ruleLE) := rfl
    _ = applyRulesGo facts (s.map (fun p => p.2)) := by rw [hmap]
    _ = Except.ok (rules[i].action, rules[i].name) := hgoal

/-! ### Concrete fixtures used by the witnesses -/

/-- A priority-50 rule with an empty (hence always matching) condition list. -/
def ruleLowW : Rule :=
  { name := some "low rule", priority := some (mkRat 50 1),
    conditions := some [], action := some { decision := "AWARD_PARTIAL", reason := "low" } }

/-- A priority-100 rule with an empty (hence always matching) condition list. -/
def ruleHighW : Rule :=
  { name := some "high rule", priority := some (mkRat 100 1),
    conditions := some [], action := some { decision := "AWARD_FULL", reason := "high" } }

/-- A rule whose single condition `cgpa < 0` fails on the fixture facts. -/
def ruleFailW : Rule :=
  { name := some "never", priority := some (mkRat 95 1),
    conditions := some [[JVal.str "cgpa", JVal.str "<", JVal.num (mkRat 0 1)]],
    action := some { decision := "REJECT", reason := "fail" } }

/-- A rule record with no `"priority"` and no `"conditions"` key. -/
def ruleBareW : Rule :=
  { name := some "bare", priority := none, conditions := none,
    action := some { decision := "REVIEW", reason := "bare" } }

/-- C1 witness: in the two-rule set `[ruleLowW, ruleHighW]` (priorities
50 then 100, both matching) the priority-100 rule listed second is
selected. -/
theorem apply_rules_first_match_witness :
    apply_rules [ruleLowW, ruleHighW] [] =
      Except.ok (some { decision := "AWARD_FULL", reason := "high" }, some "high rule") :=
  apply_rules_first_match [ruleLowW, ruleHighW] [] 1 (by decide) (by decide)
    (by decide) (by decide)

/-- C2 (refuting the claim): the engine does raise.  With facts
`{"score": 1}` the condition `["score", "<", ""]` strips the literal to
the empty string, keeps it as text (no dot, `isdigit` false), and the
order comparison between the float fact and the string raises
`TypeError` — both in `evaluate_condition` and propagated out of
`apply_rules`.  The claimed graceful degradation to false does not
happen on this well-formed input. -/
theorem evaluate_condition_raises_typeError :
    evaluate_condition [JVal.str "score", JVal.str "<", JVal.str ""]
      [("score", mkRat 1 1)] = Except.error PyErr.typeError ∧
    apply_rules
      [{ name := some "bad", priority := none,
         conditions := some [[JVal.str "score", JVal.str "<", JVal.str ""]],
         action := none }]
      [("score", mkRat 1 1)] = Except.error PyErr.typeError := by
  constructor
  · decide
  · unfold apply_rules sortedRules
    rw [List.mergeSort_singleton]
    decide

/-- C3: the numeric-looking string literal `"3.7"` is coerced to a
number, so `cgpa >= "3.7"` with `cgpa = 3.8` evaluates to true; but the
non-numeric literal `"abc"` is kept as a string and the `>=` comparison
raises `TypeError` instead of yielding false as claimed. -/
theorem literal_coercion_and_nonnumeric :
    evaluate_condition [JVal.str "cgpa", JVal.str ">=", JVal.str "3.7"]
      [("cgpa", mkRat 19 5)] = Except.ok true ∧
    evaluate_condition [JVal.str "cgpa", JVal.str ">=", JVal.str "abc"]
      [("cgpa", mkRat 19 5)] = Except.error PyErr.typeError := by
  decide

/-- C4: a rule whose conditions list is empty matches unconditionally —
its `all(...)` is vacuously true — and when the sorted iteration of
`apply_rules` reaches such a rule (every sorted-earlier rule having
evaluated to false) it immediately returns that rule's action and name. -/
theorem empty_conditions_rule_matches :
    (∀ facts : Facts, condsAll [] facts = Except.ok true) ∧
    (∀ (facts : Facts) (r : Rule) (rest : List Rule), ruleConds r = [] →
      applyRulesGo facts (r :: rest) = Except.ok (r.action, r.name)) ∧
    (∀ (rules : List Rule) (facts : Facts) (r : Rule) (pre post : List Rule),
      sortedRules rules = pre ++ r :: post →
      (∀ r' ∈ pre, ruleMatches r' facts = Except.ok false) →
      ruleConds r = [] →
      apply_rules rules facts = Except.ok (r.action, r.name)) := by
  have hm : ∀ (r : Rule) (facts : Facts), ruleConds r = [] →
      ruleMatches r facts = Except.ok true := by
    intro r facts h
    unfold ruleMatches
    rw [h]
    rfl
  refine ⟨fun facts => rfl, ?_, ?_⟩
  · intro facts r rest h
    exact applyRulesGo_cons_true (hm r facts h) rest
  · intro rules facts r pre post hdec hpre h
    unfold apply_rules
    rw [hdec, applyRulesGo_append hpre]
    exact applyRulesGo_cons_true (hm r facts h) post

/-- C4 witness: instantiating all three conjuncts on the fixture
`ruleHighW`, whose conditions list is empty. -/
theorem empty_conditions_rule_matches_witness :
    condsAll [] [("cgpa", mkRat 1 1)] = Except.ok true ∧
    applyRulesGo [] [ruleHighW] =
      Except.ok (some { decision := "AWARD_FULL", reason := "high" }, some "high rule") ∧
    apply_rules [ruleHighW] [] =
      Except.ok (some { decision := "AWARD_FULL", reason := "high" }, some "high rule") :=
  ⟨empty_conditions_rule_matches.1 [("cgpa", mkRat 1 1)],
   empty_conditions_rule_matches.2.1 [] ruleHighW [] (by decide),
   empty_conditions_rule_matches.2.2 [ruleHighW] [] ruleHighW [] []
     (by rw [sortedRules, List.mergeSort_singleton]; rfl)
     (by simp)
     (by decide)⟩

/-- C5: a condition whose field name is absent from the facts mapping
evaluates to false: the lookup returns Python `None` and the function
returns before any coercion or comparison. -/
theorem missing_field_condition_false (field op lit : JVal) (facts : Facts)
    (h : factsGet facts (pyStr field) = none) :
    evaluate_condition [field, op, lit] facts = Except.ok false := by
  show (match factsGet facts (pyStr field) with
    | none => Except.ok false
    | some val =>
      match coerceValue lit with
      | none => Except.ok false
      | some value =>
        match op, value with
        | JVal.str "==", JVal.num q => Except.ok (decide (val = q))
        | JVal.str "==", JVal.str _ => Except.ok false
        | JVal.str "!=", JVal.num q => Except.ok (decide (val ≠ q))
        | JVal.str "!=", JVal.str _ => Except.ok true
        | JVal.str ">", JVal.num q => Except.ok (decide (q < val))
        | JVal.str ">", JVal.str _ => Except.error PyErr.typeError
        | JVal.str ">=", JVal.num q => Except.ok (decide (q ≤ val))
        | JVal.str ">=", JVal.str _ => Except.error PyErr.typeError
        | JVal.str "<", JVal.num q => Except.ok (decide (val < q))
        | JVal.str "<", JVal.str _ => Except.error PyErr.typeError
        | JVal.str "<=", JVal.num q => Except.ok (decide (val ≤ q))
        | JVal.str "<=", JVal.str _ => Except.error PyErr.typeError
        | _, _ => Except.ok false) = Except.ok false
  rw [h]

/-- C5 witness: the claim's concrete instance
`evaluate(["unknown_field", ">=", 1], {"cgpa": 3.5})` is false. -/
theorem missing_field_condition_false_witness :
    evaluate_condition [JVal.str "unknown_field", JVal.str ">=", JVal.num (mkRat 1 1)]
      [("cgpa", mkRat 7 2)] = Except.ok false :=
  missing_field_condition_false (JVal.str "unknown_field") (JVal.str ">=")
    (JVal.num (mkRat 1 1)) [("cgpa", mkRat 7 2)] (by decide)

/-- C6: a condition that is not exactly a 3-element sequence evaluates
to false (never an error): the arity check is the first thing
`evaluate_condition` does. -/
theorem wrong_arity_condition_false (condition : List JVal) (facts : Facts)
    (h : condition.length ≠ 3) :
    evaluate_condition condition facts = Except.ok false := by
  rcases condition with _ | ⟨a, _ | ⟨b, _ | ⟨c, _ | ⟨d, rest⟩⟩⟩⟩
  · rfl
  · rfl
  · rfl
  · exact absurd rfl h
  · rfl

/-- C6 witness: the empty condition evaluates to false. -/
theorem wrong_arity_condition_false_witness :
    evaluate_condition [] [("cgpa", mkRat 7 2)] = Except.ok false :=
  wrong_arity_condition_false [] [("cgpa", mkRat 7 2)] (by decide)

/-- C7: when every rule's condition evaluation completes and comes out
false, `apply_rules` returns the explicit no-match pair `(None, None)`
and no exception escapes. -/
theorem no_match_returns_none_pair (rules : List Rule) (facts : Facts)
    (h : ∀ r ∈ rules, ruleMatches r facts = Except.ok false) :
    apply_rules rules facts = Except.ok (none, none) := by
  unfold apply_rules
  have h2 : ∀ r ∈ sortedRules rules, ruleMatches r facts = Except.ok false :=
    fun r hr => h r (List.mem_mergeSort.mp hr)
  have h3 := applyRulesGo_append h2 []
  rw [List.append_nil] at h3
  exact h3

/-- C7 witness: a one-rule set whose condition `cgpa < 0` fails on
`cgpa = 1` yields the no-match pair. -/
theorem no_match_returns_none_pair_witness :
    apply_rules [ruleFailW] [("cgpa", mkRat 1 1)] = Except.ok (none, none) :=
  no_match_returns_none_pair [ruleFailW] [("cgpa", mkRat 1 1)] (by decide)

/-- C9: `apply_rules` is deterministic — two calls on identical rules
and facts give identical results. -/
theorem apply_rules_deterministic (rules : List Rule) (facts : Facts)
    (out₁ out₂ : Except PyErr (Option Action × Option String))
    (h₁ : apply_rules rules facts = out₁) (h₂ : apply_rules rules facts = out₂) :
    out₁ = out₂ :=
  h₁.symm.trans h₂

/-- C9 witness: two evaluations of the empty ruleset agree. -/
theorem apply_rules_deterministic_witness :
    (Except.ok (none, none) : Except PyErr (Option Action × Option String)) =
      Except.ok (none, none) :=
  apply_rules_deterministic [] [] (Except.ok (none, none)) (Except.ok (none, none))
    (by unfold apply_rules sortedRules; rw [List.mergeSort_nil]; rfl)
    (by unfold apply_rules sortedRules; rw [List.mergeSort_nil]; rfl)

/-- C10: `apply_rules` supplies the defaults for absent rule keys: a
missing `"priority"` key sorts as priority 0, and a missing
`"conditions"` key is treated as the empty condition list, so the rule
matches unconditionally, both in the iteration and end to end. -/
theorem absent_keys_defaults :
    (∀ r : Rule, r.priority = none → rulePriority r = 0) ∧
    (∀ (r : Rule) (facts : Facts), r.conditions = none →
      ruleMatches r facts = Except.ok true) ∧
    (∀ (facts : Facts) (r : Rule) (rest : List Rule), r.conditions = none →
      applyRulesGo facts (r :: rest) = Except.ok (r.action, r.name)) ∧
    (∀ (facts : Facts) (r : Rule), r.conditions = none →
      apply_rules [r] facts = Except.ok (r.action, r.name)) := by
  have hm : ∀ (r : Rule) (facts : Facts), r.conditions = none →
      ruleMatches r facts = Except.ok true := by
    intro r facts h
    unfold ruleMatches ruleConds
    rw [h]
    rfl
  refine ⟨?_, hm, ?_, ?_⟩
  · intro r h
    unfold rulePriority
    rw [h]
    rfl
  · intro facts r rest h
    exact applyRulesGo_cons_true (hm r facts h) rest
  · intro facts r h
    unfold apply_rules sortedRules
    rw [List.mergeSort_singleton]
    exact applyRulesGo_cons_true (hm r facts h) []

/-- C10 witness: a rule record with no `"priority"` and no
`"conditions"` key sorts as priority 0 and matches any facts. -/
theorem absent_keys_defaults_witness :
    rulePriority ruleBareW = 0 ∧
    ruleMatches ruleBareW [("cgpa", mkRat 1 1)] = Except.ok true ∧
    apply_rules [ruleBareW] [] =
      Except.ok (some { decision := "REVIEW", reason := "bare" }, some "bare") :=
  ⟨absent_keys_defaults.1 ruleBareW rfl,
   absent_keys_defaults.2.1 ruleBareW [("cgpa", mkRat 1 1)] rfl,
   absent_keys_defaults.2.2.2 [] ruleBareW rfl⟩

end Scholarship
